import Mathlib

/-!
Verification of the vision pipeline of chore-slack-bot, embedded from
`src/vision.py`.  Conventions of the embedding:

* Pixel coordinates produced by the line transform are small machine
  integers (numpy `int32`); all arithmetic on them in the source stays far
  below 2^31, so they are modelled as `Int` directly.
* Python float arithmetic in `slope` and `approx_distance` operates on
  small rationals; it is modelled exactly by `Rat`.
* On a vertical segment (`x2 == x1`), `slope` divides numpy `int32`
  scalars by zero: numpy's default error state (the repository never
  calls `np.seterr`/`np.errstate`) emits a RuntimeWarning and yields the
  float `inf`/`-inf` (or `nan` for `0/0`), it does not raise.  `FSlope`
  models this four-way outcome, and the slope filter and slope-difference
  test follow the IEEE comparison rules (every comparison against `nan`
  is false, `abs(±inf)` exceeds every finite bound), so the grouping
  loop is total: a vertical segment with distinct y endpoints is skipped
  by the filter, while a degenerate point segment passes it, matches no
  group, and starts a fresh group.
* The only irrational quantity, `math.sqrt(m**2 + 1)` inside
  `approx_distance`, occurs solely in the comparison
  `approx_distance(li, gl) < tol`; the embedding uses the equivalent
  squared comparison `(b2 - b1)^2 < tol^2 * (m^2 + 1)` guarded by
  `0 ≤ tol`, which agrees with the real-number comparison for every
  `tol` because `approx_distance` is nonnegative.
-/

namespace ChoreVision

/-- A detected line segment: `HoughLinesP` yields rows `[x1, y1, x2, y2]`. -/
structure Line where
  x1 : ℤ
  y1 : ℤ
  x2 : ℤ
  y2 : ℤ
deriving DecidableEq, Repr

/-- vision.py line 23: number of painted gridlines. -/
def NUMBER_WHITE_LINES : ℕ := 24

/-- vision.py line 28. -/
def DIL_KERNEL_MULT : ℚ := 1/300

/-- vision.py line 29. -/
def ERO_KERNEL_MULT : ℚ := 1/400

/-- vision.py line 33. -/
def HL_MIN_LINE_LENGTH_MULT : ℚ := 1/8

/-- vision.py line 34. -/
def HL_MAX_LINE_GAP_MULT : ℚ := 1/1000

/-- vision.py line 36: maximum absolute slope for kept segments. -/
def MAX_SLOPE : ℚ := 1/3

/-- vision.py line 37: maximum slope difference for grouping. -/
def MAX_SLOPE_DIF : ℚ := 1/10

/-- vision.py line 38: distance multiplier for grouping. -/
def MAX_LINE_DIST_MULT : ℚ := 1/100

/-- vision.py line 40: canonical rectified width. -/
def SCALE_WIDTH : ℕ := 1000

/-- vision.py line 41: canonical rectified height. -/
def SCALE_HEIGHT : ℕ := 1500

/-- vision.py line 62: the divisor of `slope`.  It is zero exactly on a
vertical segment, where the numpy float division warns and yields a
nonfinite value instead of raising. -/
def slopeDen (l : Line) : ℤ := l.x2 - l.x1

/-- The possible results of the numpy float division in `slope`: a
finite value, `inf`, `-inf`, or `nan`. -/
inductive FSlope where
  | fin (q : ℚ)
  | posInf
  | negInf
  | nan
deriving DecidableEq, Repr

/-- The finite value of `slope` on a non-vertical segment. -/
def slopeQ (l : Line) : ℚ := ((l.y2 - l.y1 : ℤ) : ℚ) / ((slopeDen l : ℤ) : ℚ)

/-- vision.py lines 57-62: `slope(line) = (y2 - y1) / (x2 - x1)` on numpy
`int32` scalars.  Division by zero follows numpy's default error state
(no `np.seterr` anywhere in the repository): it emits a RuntimeWarning
and evaluates to `inf` or `-inf` by the sign of the numerator, or `nan`
for `0/0`; no exception is raised. -/
def slope (l : Line) : FSlope :=
  if slopeDen l = 0 then
    if l.y2 - l.y1 = 0 then FSlope.nan
    else if 0 < l.y2 - l.y1 then FSlope.posInf
    else FSlope.negInf
  else FSlope.fin (slopeQ l)

/-- vision.py line 166: the filter `abs(slope(li)) > MAX_SLOPE`.
`abs(±inf) > 1/3` is true, so vertical segments with distinct y
endpoints are skipped; `abs(nan) > 1/3` is false (IEEE comparisons
against `nan` are false), so a degenerate point segment is NOT skipped. -/
def slopeFilterSkip (s : FSlope) : Bool :=
  match s with
  | FSlope.fin q => decide (MAX_SLOPE < |q|)
  | FSlope.posInf => true
  | FSlope.negInf => true
  | FSlope.nan => false

/-- First conjunct of vision.py line 172:
`abs(slope(li) - slope(gl)) < MAX_SLOPE_DIF`.  If either slope is
nonfinite the difference is `±inf` or `nan` (`inf - inf = nan`), and
either way the strict comparison against the finite bound is false. -/
def slopeCloseB (a b : FSlope) : Bool :=
  match a, b with
  | FSlope.fin m1, FSlope.fin m2 => decide (|m1 - m2| < MAX_SLOPE_DIF)
  | _, _ => false

/-- vision.py lines 64-78 as used on line 173: the comparison
`approx_distance(l1, l2) < tol`, in the equivalent squared form (see the
module docstring).  `m1`, `m2`, `m`, `avgx`, `b1`, `b2` are exactly the
locals of `approx_distance`.  Python's short-circuiting `and` evaluates
it only when `slopeCloseB` held, i.e. when both slopes are finite and
equal to `slopeQ`; accordingly its value is combined by `&&` below and
is irrelevant otherwise. -/
def approx_distance_lt (l1 l2 : Line) (tol : ℚ) : Bool :=
  let m1 := slopeQ l1
  let m2 := slopeQ l2
  let m := (m1 + m2) / 2
  let avgx : ℚ := ((l1.x1 : ℚ) + (l2.x1 : ℚ)) / 2
  let b1 := (l1.y1 : ℚ) - m1 * ((l1.x1 : ℚ) - avgx)
  let b2 := (l2.y1 : ℚ) - m2 * ((l2.x1 : ℚ) - avgx)
  decide (0 ≤ tol) && decide ((b2 - b1) ^ 2 < tol ^ 2 * (m ^ 2 + 1))

/-- vision.py lines 172-173: the merge test between the incoming segment
`li` and an existing group line `gl`. -/
def lineMatch (tol : ℚ) (li gl : Line) : Bool :=
  slopeCloseB (slope li) (slope gl) && approx_distance_lt li gl tol

/-- Python `min(a, b, key=lambda x: x[0])`: keeps the first argument on a tie. -/
def keyMin (a b : ℤ × ℤ) : ℤ × ℤ := if b.1 < a.1 then b else a

/-- Python `max(a, b, key=lambda x: x[0])`: keeps the first argument on a tie. -/
def keyMax (a b : ℤ × ℤ) : ℤ × ℤ := if a.1 < b.1 then b else a

/-- First endpoint `line[:2]`. -/
def pt1 (l : Line) : ℤ × ℤ := (l.x1, l.y1)

/-- Second endpoint `line[2:]`. -/
def pt2 (l : Line) : ℤ × ℤ := (l.x2, l.y2)

/-- vision.py lines 174-183: merging `li` into group line `gl` replaces
`gl` by the line from the minimum-x point to the maximum-x point of the
four endpoints `p = [li[:2], li[2:], gl[:2], gl[2:]]`, folded left with
Python `min`/`max` starting from `p[0]`. -/
def mergeLines (li gl : Line) : Line :=
  let minp := keyMin (keyMin (keyMin (pt1 li) (pt2 li)) (pt1 gl)) (pt2 gl)
  let maxp := keyMax (keyMax (keyMax (pt1 li) (pt2 li)) (pt1 gl)) (pt2 gl)
  ⟨minp.1, minp.2, maxp.1, maxp.2⟩

/-- vision.py lines 170-185: the inner loop over `group_lines`.  The first
group line matching `li` is replaced in place by the merged line and the
scan stops; `none` means no group matched. -/
def insertLine (tol : ℚ) (li : Line) : List Line → Option (List Line)
  | [] => none
  | gl :: rest =>
    if lineMatch tol li gl then some (mergeLines li gl :: rest)
    else (insertLine tol li rest).map (gl :: ·)

/-- vision.py lines 163-190: one iteration of the outer loop.  A segment
failing the filter `abs(slope) > MAX_SLOPE` — including every vertical
segment with distinct y endpoints, whose slope is `±inf` — is skipped;
otherwise it is merged into the first matching group or appended as a
new group.  (The parallel `group_line_num` list of the source only ever
receives the constant 1 and is never read afterwards, so it is not
modelled.) -/
def groupStep (tol : ℚ) (gls : List Line) (li : Line) : List Line :=
  if slopeFilterSkip (slope li) then gls
  else
    match insertLine tol li gls with
    | some gls2 => gls2
    | none => gls ++ [li]

/-- vision.py lines 160-190: the grouping loop over all detected
segments.  It is total: vertical segments do not abort it, since their
slope evaluates to `±inf` or `nan` with only a RuntimeWarning (see
`slope`), and the filter and match tests handle those values. -/
def group_lines (tol : ℚ) (segs : List Line) : List Line :=
  segs.foldl (groupStep tol) []

/-- The single domain failure of the pipeline (vision.py lines 54-55). -/
inductive VisionError where
  | choreBoardNotFound (msg : String)
deriving DecidableEq, Repr

/-- vision.py lines 155-156: message raised when `HoughLinesP` finds no
segments. -/
def noLinesMsg : String :=
  "The chore board was not found in the picture! Make sure the chore board is in frame and the lighting is adaquate."

/-- Literal text of vision.py lines 200-201 before the interpolated group
count. -/
def groupMsgPre : String :=
  "The chore board was not identified. When looking for the horizontal white lines, "

/-- Literal text of vision.py lines 201-202 between the two interpolated
counts. -/
def groupMsgMid : String := " were found. There should be "

/-- Literal text of vision.py lines 202-203 after the interpolated
expected count. -/
def groupMsgSuf : String :=
  " Make sure the chore board is in frame and the lighting is adaquate."

/-- vision.py lines 200-203: the f-string of the group-count-mismatch
failure, interpolating `len(group_lines)` and `NUMBER_WHITE_LINES`. -/
def groupCountMsg (n : ℕ) : String :=
  groupMsgPre ++ toString n ++ groupMsgMid ++ toString NUMBER_WHITE_LINES ++ groupMsgSuf

/-- vision.py lines 160-203: grouping followed by the count gate at lines
199-203; `Except.error` is the `ChoreBoardNotFound` raise. -/
def groupStage (tol : ℚ) (segs : List Line) : Except VisionError (List Line) :=
  if (group_lines tol segs).length ≠ NUMBER_WHITE_LINES then
    Except.error
      (VisionError.choreBoardNotFound (groupCountMsg (group_lines tol segs).length))
  else Except.ok (group_lines tol segs)

/-- Python `max(xs, key=key)` over a nonempty list (vision.py lines
208, 210): the first element attaining the maximal key; `none` on `[]`
(where Python raises `ValueError`, a case the source never reaches since
the grouped list has length 24 there). -/
def pyMax (key : Line → ℤ) : List Line → Option Line
  | [] => none
  | g :: t => some (t.foldl (fun b x => if key b < key x then x else b) g)

/-- Python `min(xs, key=key)` (vision.py lines 209, 211): the first
element attaining the minimal key. -/
def pyMin (key : Line → ℤ) : List Line → Option Line
  | [] => none
  | g :: t => some (t.foldl (fun b x => if key x < key b then x else b) g)

/-- vision.py lines 206-213: the four corners, in the order of the `src`
array: `c1 = max(gls, key=x[1])[:2]`, `c2 = min(gls, key=x[1])[:2]`,
`c3 = max(gls, key=x[3])[2:]`, `c4 = min(gls, key=x[3])[2:]`. -/
def corners (gls : List Line) : Option (List (ℤ × ℤ)) := do
  let g1 ← pyMax (fun l => l.y1) gls
  let g2 ← pyMin (fun l => l.y1) gls
  let g3 ← pyMax (fun l => l.y2) gls
  let g4 ← pyMin (fun l => l.y2) gls
  pure [pt1 g1, pt1 g2, pt2 g3, pt2 g4]

/-- vision.py lines 214-219: the `dst` array the four corners are mapped
to by the perspective transform, row `k` being the target of corner `k`. -/
def dstQuad : List (ℤ × ℤ) :=
  [(0, (SCALE_HEIGHT : ℤ)), (0, 0),
   ((SCALE_WIDTH : ℤ), (SCALE_HEIGHT : ℤ)), ((SCALE_WIDTH : ℤ), 0)]

/-- A pixel of the rectified image in HSV representation (the button
sampling of vision.py lines 236-238 and 253-255 converts each cropped
rectangle to HSV before thresholding; the embedding works directly with
the HSV values). -/
abbrev HSV := ℕ × ℕ × ℕ

/-- The rectified canonical image, indexed `(row, column)`. -/
abbrev RectImage := ℕ → ℕ → HSV

/-- vision.py lines 10-11: map a GIMP HSV triple to the OpenCV scale. -/
def hsv_map (h s v : ℕ) : ℚ × ℚ × ℚ :=
  ((h : ℚ) * 180 / 256, (s : ℚ) * 256 / 256, (v : ℚ) * 256 / 256)

/-- vision.py line 17. -/
def WHITE_BUTTON_LOW : ℚ × ℚ × ℚ := hsv_map 10 20 130

/-- vision.py line 18. -/
def WHITE_BUTTON_HIGH : ℚ × ℚ × ℚ := hsv_map 50 130 255

/-- vision.py line 19. -/
def GREEN_BUTTON_LOW : ℚ × ℚ × ℚ := hsv_map 70 25 60

/-- vision.py line 20. -/
def GREEN_BUTTON_HIGH : ℚ × ℚ × ℚ := hsv_map 120 210 255

/-- vision.py line 43: row count, one less than the gridline count. -/
def NUMBER_BUTTONS : ℕ := NUMBER_WHITE_LINES - 1

/-- vision.py line 44. -/
def ROW_HEIGHT : ℚ := (SCALE_HEIGHT : ℚ) / (NUMBER_BUTTONS : ℚ)

/-- vision.py line 45. -/
def BUTTON_RECT_HEIGHT : ℚ := 2/3 * ROW_HEIGHT

/-- vision.py line 46. -/
def BUTTON_RECT_WIDTH_LEFT : ℚ := 1/20 * (SCALE_WIDTH : ℚ)

/-- vision.py line 47. -/
def BUTTON_RECT_WIDTH_RIGHT : ℚ := 1/10 * (SCALE_WIDTH : ℚ)

/-- vision.py line 48. -/
def BUTTON_RECT_OFFSET_Y : ℚ := 1/6 * ROW_HEIGHT

/-- vision.py line 49. -/
def LEFT_COLOR_CUTOFF : ℚ := 1/5 * BUTTON_RECT_HEIGHT * BUTTON_RECT_WIDTH_LEFT

/-- vision.py line 50. -/
def RIGHT_COLOR_CUTOFF : ℚ := 1/10 * BUTTON_RECT_HEIGHT * BUTTON_RECT_WIDTH_RIGHT

/-- numpy conversion to `int32` of the coordinate values appearing in the
button rectangles; all of them are nonnegative, where the C cast
truncation equals the floor. -/
def toPx (q : ℚ) : ℕ := ⌊q⌋.toNat

/-- Height in pixels of both button rectangles (vision.py lines 232-233,
248: second component of the `int32` rectangle size). -/
def BUTTON_RECT_HEIGHT_PX : ℕ := toPx BUTTON_RECT_HEIGHT

/-- Width in pixels of the left rectangle. -/
def BUTTON_RECT_WIDTH_LEFT_PX : ℕ := toPx BUTTON_RECT_WIDTH_LEFT

/-- Width in pixels of the right rectangle. -/
def BUTTON_RECT_WIDTH_RIGHT_PX : ℕ := toPx BUTTON_RECT_WIDTH_RIGHT

/-- vision.py lines 234, 249-251: top row of row `i`'s sample rectangles,
`int32(ROW_HEIGHT * i + BUTTON_RECT_OFFSET_Y)` (same on both sides). -/
def buttonRowTop (i : ℕ) : ℕ := toPx (ROW_HEIGHT * i + BUTTON_RECT_OFFSET_Y)

/-- vision.py line 250: left column of the right rectangle,
`int32(SCALE_WIDTH - BUTTON_RECT_WIDTH_RIGHT)`. -/
def RIGHT_RECT_X : ℕ := toPx ((SCALE_WIDTH : ℚ) - BUTTON_RECT_WIDTH_RIGHT)

/-- `cv.inRange` on one HSV pixel: inside the closed box `[low, high]`
componentwise. -/
def inRange (low high : ℚ × ℚ × ℚ) (p : HSV) : Bool :=
  decide (low.1 ≤ (p.1 : ℚ) ∧ (p.1 : ℚ) ≤ high.1 ∧
    low.2.1 ≤ (p.2.1 : ℚ) ∧ (p.2.1 : ℚ) ≤ high.2.1 ∧
    low.2.2 ≤ (p.2.2 : ℚ) ∧ (p.2.2 : ℚ) ≤ high.2.2)

/-- `np.count_nonzero(cv.inRange(...))` over the crop
`img[y0 : y0+h, x0 : x0+w]`. -/
def countInRect (img : RectImage) (y0 x0 h w : ℕ) (low high : ℚ × ℚ × ℚ) : ℕ :=
  ((List.range h).map fun dy =>
    ((List.range w).filter fun dx => inRange low high (img (y0 + dy) (x0 + dx))).length).sum

/-- vision.py lines 232-239: matching-pixel count of row `i`'s left
rectangle (columns `0 ≤ x < 50`). -/
def leftCount (img : RectImage) (i : ℕ) : ℕ :=
  countInRect img (buttonRowTop i) 0 BUTTON_RECT_HEIGHT_PX BUTTON_RECT_WIDTH_LEFT_PX
    WHITE_BUTTON_LOW WHITE_BUTTON_HIGH

/-- vision.py lines 248-256: matching-pixel count of row `i`'s right
rectangle (columns `900 ≤ x < 1000`). -/
def rightCount (img : RectImage) (i : ℕ) : ℕ :=
  countInRect img (buttonRowTop i) RIGHT_RECT_X BUTTON_RECT_HEIGHT_PX BUTTON_RECT_WIDTH_RIGHT_PX
    GREEN_BUTTON_LOW GREEN_BUTTON_HIGH

/-- vision.py lines 228-239 and 266: `left_buttons[i] = count > cutoff`
followed by `np.nonzero(left_buttons)[0].tolist()`, which lists the
indices `i < NUMBER_BUTTONS` with `left_buttons[i]` true, in ascending
order. -/
def left_buttons_idx (img : RectImage) : List ℕ :=
  (List.range NUMBER_BUTTONS).filter fun i =>
    decide (LEFT_COLOR_CUTOFF < (leftCount img i : ℚ))

/-- vision.py lines 228-230, 247-256 and 267: right-side analogue. -/
def right_buttons_idx (img : RectImage) : List ℕ :=
  (List.range NUMBER_BUTTONS).filter fun i =>
    decide (RIGHT_COLOR_CUTOFF < (rightCount img i : ℚ))

/-- The processor's durable output: the two marked-row index lists. -/
structure BoardState where
  left_marked : List ℕ
  right_marked : List ℕ
deriving DecidableEq, Repr

/-- The decoded image's numpy shape prefix: `img.shape[:2] = (rows,
cols)`, i.e. (height, width). -/
structure DecodedImage where
  rows : ℕ
  cols : ℕ
deriving DecidableEq, Repr

/-- vision.py line 116: `img_width, img_height = img.shape[:2]` binds
`img_width` to `shape[0]`, the number of ROWS, i.e. the image height. -/
def img_width (img : DecodedImage) : ℕ := img.rows

/-- vision.py line 116: `img_height` is bound to `shape[1]`, the number
of COLUMNS, i.e. the image width. -/
def img_height (img : DecodedImage) : ℕ := img.cols

/-- vision.py line 129: `int(img_width * ERO_KERNEL_MULT // 2 * 2 + 1)`
(the value is a nonnegative integer before the final `int`). -/
def ero_kern_size (img : DecodedImage) : ℤ :=
  ⌊(img_width img : ℚ) * ERO_KERNEL_MULT / 2⌋ * 2 + 1

/-- vision.py line 135: `int(img_width * DIL_KERNEL_MULT // 2 * 2 + 1)`. -/
def dil_kern_size (img : DecodedImage) : ℤ :=
  ⌊(img_width img : ℚ) * DIL_KERNEL_MULT / 2⌋ * 2 + 1

/-- vision.py line 149: `min_length = img_width * HL_MIN_LINE_LENGTH_MULT`. -/
def min_length (img : DecodedImage) : ℚ :=
  (img_width img : ℚ) * HL_MIN_LINE_LENGTH_MULT

/-- vision.py line 150: `max_gap = img_width * HL_MAX_LINE_GAP_MULT`. -/
def max_gap (img : DecodedImage) : ℚ :=
  (img_width img : ℚ) * HL_MAX_LINE_GAP_MULT

/-- vision.py line 173: the grouping distance tolerance
`img_height * MAX_LINE_DIST_MULT`. -/
def groupDistTol (img : DecodedImage) : ℚ :=
  (img_height img : ℚ) * MAX_LINE_DIST_MULT

/-- The outputs of the opaque OpenCV stages for one input byte buffer:
the decoded shape, the segments `HoughLinesP` returns on the dilated mask
(`none` models the `None` return), and the warped canonical image in HSV.
All three are functions of the input bytes alone; `log_photos` influences
none of them (`cv.imwrite`/`os.makedirs` only write files). -/
structure CvStages where
  shape : DecodedImage
  houghLines : Option (List Line)
  rectified : RectImage

/-- vision.py lines 113-267, `_extract_features`, with the OpenCV calls
abstracted by `CvStages`.  First component: `Except.error` models the
`ChoreBoardNotFound` raises, `Except.ok` the stored `BoardState`.
Second component: the diagnostic snapshots written, in order (lines
123-126, 132-133, 138-139, 196-197, 262-263), each guarded by
`log_photos`. -/
def extract_features (cv : CvStages) (log_photos : Bool) :
    Except VisionError BoardState × List String :=
  let logs : List String := if log_photos then ["1_linemask.jpg"] else []
  let logs := if log_photos then logs ++ ["2_erode.jpg"] else logs
  let logs := if log_photos then logs ++ ["3_dilate.jpg"] else logs
  match cv.houghLines with
  | none => (Except.error (VisionError.choreBoardNotFound noLinesMsg), logs)
  | some lines =>
    let gls := group_lines (groupDistTol cv.shape) lines
    let logs := if log_photos then logs ++ ["4_lines.jpg"] else logs
    if gls.length ≠ NUMBER_WHITE_LINES then
      (Except.error (VisionError.choreBoardNotFound (groupCountMsg gls.length)), logs)
    else
      let bs : BoardState := ⟨left_buttons_idx cv.rectified, right_buttons_idx cv.rectified⟩
      let logs := if log_photos then logs ++ ["5_markers.jpg"] else logs
      (Except.ok bs, logs)

/-- The inner scan finds no matching group exactly when `li` matches no
element of the group list. -/
lemma insertLine_eq_none_iff (tol : ℚ) (li : Line) :
    ∀ gls : List Line,
      insertLine tol li gls = none ↔ ∀ gl ∈ gls, lineMatch tol li gl = false := by
  intro gls
  induction gls with
  | nil => simp [insertLine]
  | cons gl rest ih =>
    by_cases h : lineMatch tol li gl = true
    · simp [insertLine, h]
    · have hf : lineMatch tol li gl = false := by
        cases hb : lineMatch tol li gl
        · rfl
        · exact absurd hb h
      simp [insertLine, hf, Option.map_eq_none', ih]

/-- When every processed segment passes the slope filter and matches no
accumulated group and no earlier processed segment, the fold only appends:
each segment starts its own group. -/
lemma foldl_groupStep_all_fresh (tol : ℚ) :
    ∀ (rest acc : List Line),
      (∀ g ∈ rest, slopeFilterSkip (slope g) = false) →
      (∀ g ∈ rest, ∀ a ∈ acc, lineMatch tol g a = false) →
      List.Pairwise (fun a b => lineMatch tol b a = false) rest →
      rest.foldl (groupStep tol) acc = acc ++ rest := by
  intro rest
  induction rest with
  | nil => intro acc _ _ _; simp
  | cons g rest ih =>
    intro acc hslope hmatch hpair
    rw [List.foldl_cons]
    have hnone : insertLine tol g acc = none :=
      (insertLine_eq_none_iff tol g acc).mpr (hmatch g (List.mem_cons_self _ _))
    have hstep : groupStep tol acc g = acc ++ [g] := by
      unfold groupStep
      rw [if_neg (by simp [hslope g (List.mem_cons_self _ _)]), hnone]
    rw [hstep, ih (acc ++ [g]) ?hs ?hm ?hp]
    · simp
    case hs => intro x hx; exact hslope x (List.mem_cons_of_mem _ hx)
    case hm =>
      intro x hx a ha
      rcases List.mem_append.mp ha with h1 | h1
      · exact hmatch x (List.mem_cons_of_mem _ hx) a h1
      · rw [List.mem_singleton] at h1; subst h1
        exact (List.pairwise_cons.mp hpair).1 x hx
    case hp => exact (List.pairwise_cons.mp hpair).2

/-- The fold implementing Python `max(xs, key=f)` returns an element of
the list. -/
lemma pickMaxFold_mem (key : Line → ℤ) :
    ∀ (t : List Line) (b : Line),
      t.foldl (fun b x => if key b < key x then x else b) b ∈ b :: t := by
  intro t
  induction t with
  | nil => intro b; simp
  | cons h t ih =>
    intro b
    rw [List.foldl_cons]
    by_cases hc : key b < key h
    · rw [if_pos hc]
      rcases List.mem_cons.mp (ih h) with h1 | h1 <;>
        simp [List.mem_cons, h1]
    · rw [if_neg hc]
      rcases List.mem_cons.mp (ih b) with h1 | h1 <;>
        simp [List.mem_cons, h1]

/-- The fold implementing Python `max(xs, key=f)` dominates every listed
element. -/
lemma pickMaxFold_le (key : Line → ℤ) :
    ∀ (t : List Line) (b : Line),
      ∀ x ∈ b :: t, key x ≤ key (t.foldl (fun b x => if key b < key x then x else b) b) := by
  intro t
  induction t with
  | nil =>
    intro b x hx
    rw [List.mem_singleton] at hx; subst hx; simp
  | cons h t ih =>
    intro b x hx
    rw [List.foldl_cons]
    by_cases hc : key b < key h
    · rw [if_pos hc]
      rcases List.mem_cons.mp hx with rfl | h1
      · exact le_trans (le_of_lt hc) (ih h h (List.mem_cons_self _ _))
      · exact ih h x h1
    · rw [if_neg hc]
      rcases List.mem_cons.mp hx with rfl | h1
      · exact ih x x (List.mem_cons_self _ _)
      · rcases List.mem_cons.mp h1 with rfl | h2
        · exact le_trans (not_lt.mp hc) (ih b b (List.mem_cons_self _ _))
        · exact ih b x (List.mem_cons_of_mem _ h2)

/-- The fold implementing Python `min(xs, key=f)` returns an element of
the list. -/
lemma pickMinFold_mem (key : Line → ℤ) :
    ∀ (t : List Line) (b : Line),
      t.foldl (fun b x => if key x < key b then x else b) b ∈ b :: t := by
  intro t
  induction t with
  | nil => intro b; simp
  | cons h t ih =>
    intro b
    rw [List.foldl_cons]
    by_cases hc : key h < key b
    · rw [if_pos hc]
      rcases List.mem_cons.mp (ih h) with h1 | h1 <;>
        simp [List.mem_cons, h1]
    · rw [if_neg hc]
      rcases List.mem_cons.mp (ih b) with h1 | h1 <;>
        simp [List.mem_cons, h1]

/-- The fold implementing Python `min(xs, key=f)` is below every listed
element. -/
lemma pickMinFold_le (key : Line → ℤ) :
    ∀ (t : List Line) (b : Line),
      ∀ x ∈ b :: t, key (t.foldl (fun b x => if key x < key b then x else b) b) ≤ key x := by
  intro t
  induction t with
  | nil =>
    intro b x hx
    rw [List.mem_singleton] at hx; subst hx; simp
  | cons h t ih =>
    intro b x hx
    rw [List.foldl_cons]
    by_cases hc : key h < key b
    · rw [if_pos hc]
      rcases List.mem_cons.mp hx with rfl | h1
      · exact le_trans (ih h h (List.mem_cons_self _ _)) (le_of_lt hc)
      · exact ih h x h1
    · rw [if_neg hc]
      rcases List.mem_cons.mp hx with rfl | h1
      · exact ih x x (List.mem_cons_self _ _)
      · rcases List.mem_cons.mp h1 with rfl | h2
        · exact le_trans (ih b b (List.mem_cons_self _ _)) (not_lt.mp hc)
        · exact ih b x (List.mem_cons_of_mem _ h2)

/-- Specification of the Python `max` with key. -/
lemma pyMax_spec (key : Line → ℤ) (gls : List Line) (g : Line)
    (h : pyMax key gls = some g) : g ∈ gls ∧ ∀ x ∈ gls, key x ≤ key g := by
  cases gls with
  | nil => simp [pyMax] at h
  | cons a t =>
    obtain rfl := Option.some.inj h
    exact ⟨pickMaxFold_mem key t a, pickMaxFold_le key t a⟩

/-- Specification of the Python `min` with key. -/
lemma pyMin_spec (key : Line → ℤ) (gls : List Line) (g : Line)
    (h : pyMin key gls = some g) : g ∈ gls ∧ ∀ x ∈ gls, key g ≤ key x := by
  cases gls with
  | nil => simp [pyMin] at h
  | cons a t =>
    obtain rfl := Option.some.inj h
    exact ⟨pickMinFold_mem key t a, pickMinFold_le key t a⟩

/-- Claim C10, counterexample: the grouping computation is NOT
conditionally total — it completes on every input, vertical segments
included.  On `[(3,0,3,9), (0,0,10,0)]` the vertical segment gets slope
`+inf` (numpy division by zero warns, it does not raise) and is skipped
by the slope filter, leaving the one flat group; and the degenerate
point segment `(3,5,3,5)` gets slope `nan`, passes the filter
(`abs(nan) > 1/3` is false), matches nothing, and becomes its own
group. -/
theorem vertical_segment_grouping_completes_cex :
    group_lines 15 [Line.mk 3 0 3 9, Line.mk 0 0 10 0] = [Line.mk 0 0 10 0] ∧
    group_lines 15 [Line.mk 3 5 3 5] = [Line.mk 3 5 3 5] := by
  constructor <;>
    norm_num [group_lines, groupStep, insertLine, lineMatch, slopeCloseB,
      slopeFilterSkip, approx_distance_lt, mergeLines, keyMin, keyMax, pt1, pt2,
      slope, slopeQ, slopeDen, MAX_SLOPE, MAX_SLOPE_DIF]

/-- Claim C10, amended: `slope` divides by `x2 - x1` with no zero guard
and is applied to every detected segment before the slope filter can
discard it, and on a vertical segment the divisor is zero; but numpy
scalar division by zero warns and yields `±inf` (or `nan` for a
degenerate point segment) instead of raising, so the grouping loop is
total on every input: a vertical segment with distinct y endpoints
leaves the groups unchanged (skipped by the filter), while a degenerate
point segment passes the filter, matches no group, and is appended as a
fresh group. -/
theorem vertical_segments_filtered_not_fatal :
    ∀ (tol : ℚ) (l : Line) (gls : List Line), l.x1 = l.x2 →
      slopeDen l = 0 ∧
      (l.y1 ≠ l.y2 → groupStep tol gls l = gls) ∧
      (l.y1 = l.y2 → groupStep tol gls l = gls ++ [l]) := by
  intro tol l gls hx
  have hden : slopeDen l = 0 := by unfold slopeDen; omega
  refine ⟨hden, ?_, ?_⟩
  · intro hy
    have hskip : slopeFilterSkip (slope l) = true := by
      unfold slope
      rw [if_pos hden]
      by_cases h0 : l.y2 - l.y1 = 0
      · exact absurd (by omega : l.y1 = l.y2) hy
      · rw [if_neg h0]
        by_cases hpos : 0 < l.y2 - l.y1
        · rw [if_pos hpos]; rfl
        · rw [if_neg hpos]; rfl
    unfold groupStep
    rw [if_pos hskip]
  · intro hy
    have hnan : slope l = FSlope.nan := by
      unfold slope
      rw [if_pos hden, if_pos (by omega)]
    have hnone : insertLine tol l gls = none := by
      apply (insertLine_eq_none_iff tol l gls).mpr
      intro gl _
      unfold lineMatch
      rw [hnan]
      cases hsg : slope gl <;> simp [slopeCloseB]
    unfold groupStep
    rw [if_neg (by simp [hnan, slopeFilterSkip]), hnone]

/-- Witness for `vertical_segments_filtered_not_fatal` at the vertical
segment (3,0,3,9) against one existing flat group. -/
theorem vertical_segments_filtered_not_fatal_witness :
    slopeDen (Line.mk 3 0 3 9) = 0 ∧
    ((Line.mk 3 0 3 9).y1 ≠ (Line.mk 3 0 3 9).y2 →
      groupStep 15 [Line.mk 0 0 10 0] (Line.mk 3 0 3 9) = [Line.mk 0 0 10 0]) ∧
    ((Line.mk 3 0 3 9).y1 = (Line.mk 3 0 3 9).y2 →
      groupStep 15 [Line.mk 0 0 10 0] (Line.mk 3 0 3 9) =
        [Line.mk 0 0 10 0] ++ [Line.mk 3 0 3 9]) :=
  vertical_segments_filtered_not_fatal 15 (Line.mk 3 0 3 9) [Line.mk 0 0 10 0] rfl

/-- Claim C1: for every list of detected segments — vertical segments
included, since the grouping loop is total — the grouping stage succeeds
exactly when the resulting group count equals the configured gridline
count 24; on any other count it fails with `ChoreBoardNotFound`, whose
message interpolates the observed count and the expected count. -/
theorem groupStage_ok_iff_count :
    ∀ (tol : ℚ) (segs : List Line),
      ((groupStage tol segs = Except.ok (group_lines tol segs)) ↔
        (group_lines tol segs).length = NUMBER_WHITE_LINES) ∧
      ((group_lines tol segs).length ≠ NUMBER_WHITE_LINES →
        groupStage tol segs =
          Except.error (VisionError.choreBoardNotFound
            (groupCountMsg (group_lines tol segs).length))) ∧
      (∀ gls : List Line, groupStage tol segs = Except.ok gls →
        gls = group_lines tol segs ∧ gls.length = NUMBER_WHITE_LINES) ∧
      groupCountMsg (group_lines tol segs).length =
        groupMsgPre ++ toString (group_lines tol segs).length ++ groupMsgMid ++
          toString NUMBER_WHITE_LINES ++ groupMsgSuf ∧
      NUMBER_WHITE_LINES = 24 := by
  intro tol segs
  refine ⟨?_, ?_, ?_, rfl, rfl⟩
  · by_cases hl : (group_lines tol segs).length = NUMBER_WHITE_LINES
    · simp [groupStage, hl]
    · simp [groupStage, hl]
  · intro hl
    simp [groupStage, hl]
  · intro gls hok
    by_cases hl : (group_lines tol segs).length = NUMBER_WHITE_LINES
    · unfold groupStage at hok
      rw [if_neg (by simp [hl])] at hok
      have hinj := Except.ok.inj hok
      exact ⟨hinj.symm, hinj ▸ hl⟩
    · unfold groupStage at hok
      rw [if_pos hl] at hok
      exact Except.noConfusion hok

/-- Witness for `groupStage_ok_iff_count` at the empty segment list:
zero groups result, so the stage fails with the count-reporting
message. -/
theorem groupStage_ok_iff_count_witness :
    ((groupStage 0 ([] : List Line) = Except.ok (group_lines 0 ([] : List Line))) ↔
      (group_lines 0 ([] : List Line)).length = NUMBER_WHITE_LINES) ∧
    ((group_lines 0 ([] : List Line)).length ≠ NUMBER_WHITE_LINES →
      groupStage 0 ([] : List Line) =
        Except.error (VisionError.choreBoardNotFound
          (groupCountMsg (group_lines 0 ([] : List Line)).length))) ∧
    (∀ gls : List Line, groupStage 0 ([] : List Line) = Except.ok gls →
      gls = group_lines 0 ([] : List Line) ∧ gls.length = NUMBER_WHITE_LINES) ∧
    groupCountMsg (group_lines 0 ([] : List Line)).length =
      groupMsgPre ++ toString (group_lines 0 ([] : List Line)).length ++ groupMsgMid ++
        toString NUMBER_WHITE_LINES ++ groupMsgSuf ∧
    NUMBER_WHITE_LINES = 24 :=
  groupStage_ok_iff_count 0 []

/-- Claim C7, counterexample: grouping is not idempotent.  Two flat,
vertically separated segments within the distance tolerance 500 merge
into the single group `(0,0)-(1010,400)`, whose slope `400/1010` exceeds
`MAX_SLOPE = 1/3`; re-grouping that one group therefore discards it at
the slope filter and yields zero groups instead of the same one group. -/
theorem regrouping_changes_groups_cex :
    group_lines 500 [Line.mk 0 0 10 0, Line.mk 1000 400 1010 400] =
      [Line.mk 0 0 1010 400] ∧
    group_lines 500 [Line.mk 0 0 1010 400] = [] := by
  constructor
  · norm_num [group_lines, groupStep, insertLine, lineMatch, slopeCloseB,
      slopeFilterSkip, approx_distance_lt, mergeLines, keyMin, keyMax, pt1, pt2,
      slope, slopeQ, slopeDen, MAX_SLOPE, MAX_SLOPE_DIF]
  · norm_num [group_lines, groupStep, insertLine, lineMatch, slopeCloseB,
      slopeFilterSkip, approx_distance_lt, mergeLines, keyMin, keyMax, pt1, pt2,
      slope, slopeQ, slopeDen, MAX_SLOPE, MAX_SLOPE_DIF, abs]

/-- Claim C7, amended: re-grouping the grouping's own output returns
exactly the same groups provided each output group passes the slope
filter and no two distinct output groups satisfy the merge criterion;
without those provisos a merged group can fail the slope filter (see the
counterexample) and the group count changes. -/
theorem regrouping_fixes_separated_groups :
    ∀ (tol : ℚ) (segs gls : List Line), group_lines tol segs = gls →
      (∀ g ∈ gls, slopeFilterSkip (slope g) = false) →
      List.Pairwise (fun a b => lineMatch tol b a = false) gls →
      group_lines tol gls = gls := by
  intro tol segs gls _ hslope hpair
  unfold group_lines
  rw [foldl_groupStep_all_fresh tol gls [] hslope (by simp) hpair]
  simp

/-- Witness for `regrouping_fixes_separated_groups`: two flat segments
100 apart with tolerance 5 form two groups, and re-grouping returns the
same two groups. -/
theorem regrouping_fixes_separated_groups_witness :
    group_lines 5 [Line.mk 0 0 10 0, Line.mk 0 100 10 100] =
      [Line.mk 0 0 10 0, Line.mk 0 100 10 100] := by
  apply regrouping_fixes_separated_groups 5 [Line.mk 0 0 10 0, Line.mk 0 100 10 100]
  · norm_num [group_lines, groupStep, insertLine, lineMatch, slopeCloseB,
      slopeFilterSkip, approx_distance_lt, mergeLines, keyMin, keyMax, pt1, pt2,
      slope, slopeQ, slopeDen, MAX_SLOPE, MAX_SLOPE_DIF]
  · intro g hg
    rcases List.mem_cons.mp hg with rfl | hg
    · norm_num [slopeFilterSkip, slope, slopeQ, slopeDen, MAX_SLOPE]
    · rw [List.mem_singleton] at hg
      subst hg
      norm_num [slopeFilterSkip, slope, slopeQ, slopeDen, MAX_SLOPE]
  · refine List.Pairwise.cons (fun b hb => ?_) (List.pairwise_singleton _ _)
    rw [List.mem_singleton] at hb
    subst hb
    norm_num [lineMatch, slopeCloseB, approx_distance_lt, slope, slopeQ,
      slopeDen, MAX_SLOPE_DIF]

/-- Claim C3 (code bug): the endpoint-ordering invariant `x1 ≤ x2` fails
for a group formed from a single segment that was never merged; the
grouping loop returns such a segment unchanged, with its endpoints still
in right-to-left order, although the corner selection (vision.py line
207, a comment asserting `first point is always smaller x due to above`)
relies on the invariant. -/
theorem never_merged_group_keeps_reversed_endpoints :
    group_lines 15 [Line.mk 5 0 1 0] = [Line.mk 5 0 1 0] ∧
    (Line.mk 5 0 1 0).x2 < (Line.mk 5 0 1 0).x1 := by
  constructor
  · norm_num [group_lines, groupStep, insertLine, lineMatch, slopeCloseB,
      slopeFilterSkip, approx_distance_lt, mergeLines, keyMin, keyMax, pt1, pt2,
      slope, slopeQ, slopeDen, MAX_SLOPE, MAX_SLOPE_DIF]
  · decide


/-- Claim C4 (code bug): `img.shape[:2]` is `(rows, cols)`, so the
variable `img_width` of vision.py line 116 is bound to the image HEIGHT
and `img_height` to the image WIDTH.  For a 4000-wide, 1500-tall decoded
image the erosion and dilation kernel sizes and the line-transform
lengths are therefore computed from 1500 (the height; the claimed
width-proportional values would be 11, 13, 500 and 4), and the grouping
distance tolerance from 4000 (the width; the claimed height-proportional
value would be 15). -/
theorem scale_params_follow_swapped_shape :
    ero_kern_size (DecodedImage.mk 1500 4000) = 3 ∧
    dil_kern_size (DecodedImage.mk 1500 4000) = 5 ∧
    min_length (DecodedImage.mk 1500 4000) = 375/2 ∧
    max_gap (DecodedImage.mk 1500 4000) = 3/2 ∧
    groupDistTol (DecodedImage.mk 1500 4000) = 40 := by
  refine ⟨?_, ?_, ?_, ?_, ?_⟩ <;>
    norm_num [ero_kern_size, dil_kern_size, min_length, max_gap, groupDistTol,
      img_width, img_height, ERO_KERNEL_MULT, DIL_KERNEL_MULT,
      HL_MIN_LINE_LENGTH_MULT, HL_MAX_LINE_GAP_MULT, MAX_LINE_DIST_MULT]

/-- Claim C5: with the groups present (the stage runs only on exactly 24
groups) and satisfying the endpoint-ordering invariant, the four corners
are the first endpoint of the group with maximal first-endpoint y, the
first endpoint of the group with minimal first-endpoint y, the second
endpoint of the group with maximal second-endpoint y, and the second
endpoint of the group with minimal second-endpoint y, mapped in this
order to the canonical points (0,H), (0,0), (W,H), (W,0) with the fixed
size W = 1000, H = 1500 independent of the input resolution. -/
theorem corner_selection_extremal :
    ∀ gls : List Line, gls.length = NUMBER_WHITE_LINES → (∀ g ∈ gls, g.x1 ≤ g.x2) →
      ∃ g1 g2 g3 g4 : Line,
        g1 ∈ gls ∧ (∀ g ∈ gls, g.y1 ≤ g1.y1) ∧
        g2 ∈ gls ∧ (∀ g ∈ gls, g2.y1 ≤ g.y1) ∧
        g3 ∈ gls ∧ (∀ g ∈ gls, g.y2 ≤ g3.y2) ∧
        g4 ∈ gls ∧ (∀ g ∈ gls, g4.y2 ≤ g.y2) ∧
        corners gls =
          some [(g1.x1, g1.y1), (g2.x1, g2.y1), (g3.x2, g3.y2), (g4.x2, g4.y2)] ∧
        dstQuad = [(0, 1500), (0, 0), (1000, 1500), (1000, 0)] ∧
        SCALE_WIDTH = 1000 ∧ SCALE_HEIGHT = 1500 := by
  intro gls hlen hinv
  cases gls with
  | nil => simp [NUMBER_WHITE_LINES] at hlen
  | cons a t =>
    have h1 := pyMax_spec (fun l => l.y1) (a :: t) _ rfl
    have h2 := pyMin_spec (fun l => l.y1) (a :: t) _ rfl
    have h3 := pyMax_spec (fun l => l.y2) (a :: t) _ rfl
    have h4 := pyMin_spec (fun l => l.y2) (a :: t) _ rfl
    exact ⟨_, _, _, _, h1.1, h1.2, h2.1, h2.2, h3.1, h3.2, h4.1, h4.2,
      rfl, rfl, rfl, rfl⟩

/-- Witness for `corner_selection_extremal` at 24 horizontal unit-height
lines. -/
theorem corner_selection_extremal_witness :
    ∃ g1 g2 g3 g4 : Line,
      g1 ∈ ((List.range NUMBER_WHITE_LINES).map fun i : ℕ => Line.mk 0 (i : ℤ) 10 (i : ℤ)) ∧
      (∀ g ∈ ((List.range NUMBER_WHITE_LINES).map fun i : ℕ => Line.mk 0 (i : ℤ) 10 (i : ℤ)),
        g.y1 ≤ g1.y1) ∧
      g2 ∈ ((List.range NUMBER_WHITE_LINES).map fun i : ℕ => Line.mk 0 (i : ℤ) 10 (i : ℤ)) ∧
      (∀ g ∈ ((List.range NUMBER_WHITE_LINES).map fun i : ℕ => Line.mk 0 (i : ℤ) 10 (i : ℤ)),
        g2.y1 ≤ g.y1) ∧
      g3 ∈ ((List.range NUMBER_WHITE_LINES).map fun i : ℕ => Line.mk 0 (i : ℤ) 10 (i : ℤ)) ∧
      (∀ g ∈ ((List.range NUMBER_WHITE_LINES).map fun i : ℕ => Line.mk 0 (i : ℤ) 10 (i : ℤ)),
        g.y2 ≤ g3.y2) ∧
      g4 ∈ ((List.range NUMBER_WHITE_LINES).map fun i : ℕ => Line.mk 0 (i : ℤ) 10 (i : ℤ)) ∧
      (∀ g ∈ ((List.range NUMBER_WHITE_LINES).map fun i : ℕ => Line.mk 0 (i : ℤ) 10 (i : ℤ)),
        g4.y2 ≤ g.y2) ∧
      corners ((List.range NUMBER_WHITE_LINES).map fun i : ℕ => Line.mk 0 (i : ℤ) 10 (i : ℤ)) =
        some [(g1.x1, g1.y1), (g2.x1, g2.y1), (g3.x2, g3.y2), (g4.x2, g4.y2)] ∧
      dstQuad = [(0, 1500), (0, 0), (1000, 1500), (1000, 0)] ∧
      SCALE_WIDTH = 1000 ∧ SCALE_HEIGHT = 1500 :=
  corner_selection_extremal _ (by rw [List.length_map, List.length_range])
    (by
      intro g hg
      simp only [List.mem_map] at hg
      obtain ⟨i, _, rfl⟩ := hg
      norm_num)

/-- Claim C2: a row index below the row count 23 is listed as marked on
the left side exactly when the count of pixels of its left sample
rectangle inside the left-button HSV range strictly exceeds one fifth of
the left rectangle's area, and on the right side exactly when the count
inside the green-button range strictly exceeds one tenth of the right
rectangle's area. -/
theorem button_marked_iff_cutoff :
    ∀ (img : RectImage) (i : ℕ), i < NUMBER_BUTTONS →
      ((i ∈ left_buttons_idx img ↔
          1/5 * (BUTTON_RECT_WIDTH_LEFT * BUTTON_RECT_HEIGHT) < (leftCount img i : ℚ)) ∧
       (i ∈ right_buttons_idx img ↔
          1/10 * (BUTTON_RECT_WIDTH_RIGHT * BUTTON_RECT_HEIGHT) < (rightCount img i : ℚ))) := by
  intro img i hi
  have hcl : (1/5 * (BUTTON_RECT_WIDTH_LEFT * BUTTON_RECT_HEIGHT) : ℚ) = LEFT_COLOR_CUTOFF := by
    unfold LEFT_COLOR_CUTOFF
    ring
  have hcr : (1/10 * (BUTTON_RECT_WIDTH_RIGHT * BUTTON_RECT_HEIGHT) : ℚ) = RIGHT_COLOR_CUTOFF := by
    unfold RIGHT_COLOR_CUTOFF
    ring
  constructor
  · rw [hcl, left_buttons_idx, List.mem_filter]
    simp [List.mem_range, hi]
  · rw [hcr, right_buttons_idx, List.mem_filter]
    simp [List.mem_range, hi]

/-- Witness for `button_marked_iff_cutoff` on the all-black rectified
image at row 0. -/
theorem button_marked_iff_cutoff_witness :
    ((0 ∈ left_buttons_idx (fun _ _ => (0, 0, 0)) ↔
        1/5 * (BUTTON_RECT_WIDTH_LEFT * BUTTON_RECT_HEIGHT) <
          ((leftCount (fun _ _ => (0, 0, 0)) 0 : ℕ) : ℚ)) ∧
     (0 ∈ right_buttons_idx (fun _ _ => (0, 0, 0)) ↔
        1/10 * (BUTTON_RECT_WIDTH_RIGHT * BUTTON_RECT_HEIGHT) <
          ((rightCount (fun _ _ => (0, 0, 0)) 0 : ℕ) : ℚ))) :=
  button_marked_iff_cutoff (fun _ _ => (0, 0, 0)) 0 (by decide)

/-- Claim C9: on every successful run the two output lists are strictly
ascending, duplicate-free lists of zero-based row indices below the row
count, which is 23. -/
theorem marked_lists_sorted_bounded :
    ∀ img : RectImage,
      List.Sorted (· < ·) (left_buttons_idx img) ∧
      (left_buttons_idx img).Nodup ∧
      (∀ i ∈ left_buttons_idx img, i < NUMBER_BUTTONS) ∧
      List.Sorted (· < ·) (right_buttons_idx img) ∧
      (right_buttons_idx img).Nodup ∧
      (∀ i ∈ right_buttons_idx img, i < NUMBER_BUTTONS) ∧
      NUMBER_BUTTONS = 23 := by
  intro img
  have hs : List.Pairwise (· < ·) (List.range NUMBER_BUTTONS) := List.pairwise_lt_range _
  refine ⟨hs.filter _, (hs.filter _).imp (fun h => Nat.ne_of_lt h), ?_,
    hs.filter _, (hs.filter _).imp (fun h => Nat.ne_of_lt h), ?_, rfl⟩
  · intro i hi
    exact List.mem_range.mp (List.mem_of_mem_filter hi)
  · intro i hi
    exact List.mem_range.mp (List.mem_of_mem_filter hi)

/-- Claim C8: the `log_photos` flag only gates the diagnostic snapshot
writes; for every fixed stage output the computed result (success or
failure and both index lists) is identical with logging on and off. -/
theorem log_flag_does_not_affect_result :
    ∀ cv : CvStages, (extract_features cv true).1 = (extract_features cv false).1 := by
  intro cv
  obtain ⟨shape, hough, rect⟩ := cv
  cases hough with
  | none => rfl
  | some lines =>
    by_cases h : (group_lines (groupDistTol shape) lines).length ≠ NUMBER_WHITE_LINES
    · simp [extract_features, h]
    · simp [extract_features, h]

/-- Claim C6, counterexample: when the line transform returns no
segments, processing does fail with `ChoreBoardNotFound`, but the raised
message is fixed guidance text containing no digit at all, so it does
not report the counts found versus expected (unlike the
group-count-mismatch message). -/
theorem no_lines_message_without_counts_cex :
    (extract_features
        (CvStages.mk (DecodedImage.mk 1500 1000) none (fun _ _ => (0, 0, 0))) true).1 =
      Except.error (VisionError.choreBoardNotFound noLinesMsg) ∧
    noLinesMsg.data.any Char.isDigit = false :=
  ⟨rfl, by decide⟩

/-- Claim C6, amended: if no segments are found, processing fails with
`ChoreBoardNotFound` carrying the fixed guidance message, which states no
counts; only the group-count-mismatch failure reports the counts found
versus expected. -/
theorem no_lines_fails_with_fixed_guidance :
    ∀ (cv : CvStages) (flag : Bool), cv.houghLines = none →
      (extract_features cv flag).1 =
        Except.error (VisionError.choreBoardNotFound noLinesMsg) ∧
      noLinesMsg.data.any Char.isDigit = false := by
  intro cv flag h
  obtain ⟨shape, hough, rect⟩ := cv
  dsimp only at h
  subst h
  exact ⟨by cases flag <;> rfl, by decide⟩

/-- Witness for `no_lines_fails_with_fixed_guidance` with logging off. -/
theorem no_lines_fails_with_fixed_guidance_witness :
    (extract_features
        (CvStages.mk (DecodedImage.mk 800 600) none (fun _ _ => (0, 0, 0))) false).1 =
      Except.error (VisionError.choreBoardNotFound noLinesMsg) ∧
    noLinesMsg.data.any Char.isDigit = false :=
  no_lines_fails_with_fixed_guidance _ false rfl

end ChoreVision
